import Mathlib

/-!
# Verification of `jinja2_component/extension.py`

A shallow embedding of the component tag compiler of this repository.

The program is a Jinja2 extension: `ComponentExtension.parse` receives the
host parser positioned at a registered component tag name, looks the tag up
in `environment.components`, parses `name = expression` attribute pairs,
and emits a Jinja2 AST fragment: a `Scope` node containing

  * `Assign __component = {field defaults}` (`_initialize_component_dict`:
    for each dataclass field, a `default` becomes a constant entry and a
    `default_factory` is invoked at compile time and its result becomes a
    constant entry; fields with neither are omitted),
  * optionally `ExprStmt(__component.update({attribute pairs}))`,
  * `Assign component = __component`, `Assign __component = None`,
  * for children-bearing components a zero-argument `Macro children`
    wrapping the parsed tag body (end tag dropped),
  * an `Include` of `component["template"]` with `ignore_missing = False`
    and `with_context = True`.

Machine-level details that no claim depends on are elided: `lineno`
bookkeeping on tokens and nodes, and the `Pair` node's key (always a
`Const` string in this program) is carried as a `String` directly.

Render-time claims additionally use a small interpreter for the emitted
fragment, modelling the host (Jinja2) semantics the spec relies on:
scoped blocks, assignment, dict update, zero-argument macros, default
`Undefined` (renders empty, errors when called), and `Include` with
caller-context inheritance.
-/

/-- Constant values that the compiler can bake into the emitted program
(Python values reachable here: `None`, bools, ints, strings, lists,
dicts). -/
inductive CVal : Type where
  | null : CVal
  | bool : Bool → CVal
  | int : Int → CVal
  | str : String → CVal
  | list : List CVal → CVal
  | dict : List (String × CVal) → CVal
deriving Repr

/-- Jinja2 expression nodes used by the extension and by the templates of
this repository's tests. `dictE` is `nodes.Dict` over `nodes.Pair` whose
keys in this program are always `nodes.Const` strings. -/
inductive Expr : Type where
  | const : CVal → Expr
  | name : String → Expr
  | getattr : Expr → String → Expr
  | getitem : Expr → Expr → Expr
  | dictE : List (String × Expr) → Expr
  | listE : List Expr → Expr
  | call : Expr → List Expr → Expr
  | concat : Expr → Expr → Expr
deriving Repr

/-- Jinja2 statement nodes: the ones the extension emits (`Scope`,
`Assign`, `ExprStmt`, `Macro`, `Include`) plus template output nodes used
to express test templates. `macroDef` is `nodes.Macro` (name, args, body);
the bodies emitted here always have empty `args`/`defaults`. -/
inductive Stmt : Type where
  | scope : List Stmt → Stmt
  | assign : String → Expr → Stmt
  | exprStmt : Expr → Stmt
  | macroDef : String → List String → List Stmt → Stmt
  | includeT : Expr → Bool → Bool → Stmt
  | output : String → Stmt
  | emit : Expr → Stmt
deriving Repr

/-- One dataclass field of a component class: `dataclasses.fields` exposes
`name`, `default` (or `MISSING`) and `default_factory` (or `MISSING`).
`MISSING` is modelled by `none`. -/
structure FieldSpec : Type where
  name : String
  default : Option CVal := none
  default_factory : Option (Unit → CVal) := none

/-- A registered component class: its tag name (the Python class name) and
its dataclass fields in declaration order. -/
structure ComponentClass : Type where
  name : String
  fields : List FieldSpec

def TMP_COMPONENT_DICT_NAME : String := "__component"
def COMPONENT_DICT_NAME : String := "component"
def TEMPLATE_FIELD_NAME : String := "template"
def CHILDREN_FIELD_NAME : String := "children"
def CHILDREN_MACRO_NAME : String := "children"

/-- Tokens of the host token stream as the extension consumes them.
Expressions are pre-parsed (`exprTok` stands for the tokens consumed by
one `parser.parse_expression()` call) and body-level host statements are
pre-parsed (`stmtTok` stands for one statement consumed by
`parser.parse_statements`); `endName t` is a `name` token whose value `t`
starts with `end` (matched against `'name:end' + tag_name`). -/
inductive Tok : Type where
  | name : String → Tok
  | assign : Tok
  | comma : Tok
  | blockEnd : Tok
  | exprTok : Expr → Tok
  | stmtTok : Stmt → Tok
  | endName : String → Tok
deriving Repr

/-- Errors surfaced during compilation of one tag occurrence. In the
source these are a `KeyError` from `self.environment.components[tag_name]`
(carrying the tag name), Jinja2 `TemplateSyntaxError`s from
`stream.expect`, and the `TemplateSyntaxError` raised when the stream ends
before the matching end tag (`parse_statements`). -/
inductive CompileError : Type where
  | unknownComponent : String → CompileError
  | syntaxError : CompileError
  | unterminatedComponent : CompileError
deriving Repr, DecidableEq

/-- Continuation of the attribute-parsing loop of `parse` (`extension.py`
lines 46-53) once at least one pair has been collected
(`component_dict_update_items` non-empty): each further pair is preceded
by an expected `comma`, then `name`, `assign`, one expression. Stops,
leaving the `block_end` token in the stream, when the current token is
`block_end`; anything else is a syntax error (Jinja2 `stream.expect`). -/
def parseAttrsRest : List Tok →
    Except CompileError (List (String × Expr) × List Tok)
  | Tok.blockEnd :: rest => .ok ([], Tok.blockEnd :: rest)
  | Tok.comma :: Tok.name n :: Tok.assign :: Tok.exprTok e :: rest =>
    (parseAttrsRest rest).map (fun pr => ((n, e) :: pr.1, pr.2))
  | _ => .error .syntaxError

/-- The attribute-parsing loop of `parse` (`extension.py` lines 46-53):
while the current token is not `block_end`, expect a separating `comma`
after the first pair, then `name`, `assign`, one expression; collect the
`(name, expression)` pairs in source order. The `block_end` token is left
in the stream (the loop only peeks at its type). -/
def parseAttrs : List Tok →
    Except CompileError (List (String × Expr) × List Tok)
  | Tok.blockEnd :: rest => .ok ([], Tok.blockEnd :: rest)
  | Tok.name n :: Tok.assign :: Tok.exprTok e :: rest =>
    (parseAttrsRest rest).map (fun pr => ((n, e) :: pr.1, pr.2))
  | _ => .error .syntaxError

/-- `_initialize_component_dict`'s item loop (`extension.py` lines
110-115), instrumented with a trace of factory invocations: for each
field in declaration order, a field with a `default` contributes its
stored value, otherwise a field with a `default_factory` has its factory
invoked here — the invocation is recorded in the second component — and
its result contributes the pair's value; fields with neither contribute
nothing. Every contributed value is a concrete Python value that
`pair_node_for_field` wraps in `Const` nodes (see
`init_component_dict_items`). -/
def init_component_dict_pairs : List FieldSpec →
    List (String × CVal) × List String
  | [] => ([], [])
  | f :: rest =>
    let pr := init_component_dict_pairs rest
    match f.default with
    | some v => ((f.name, v) :: pr.1, pr.2)
    | none =>
      match f.default_factory with
      | some fac => ((f.name, fac ()) :: pr.1, f.name :: pr.2)
      | none => pr

/-- The `Pair` nodes of `_initialize_component_dict`
(`pair_node_for_field`): each collected default value is baked into the
program as a `Const` node. -/
def init_component_dict_items (fields : List FieldSpec) :
    List (String × Expr) :=
  (init_component_dict_pairs fields).1.map fun p => (p.1, Expr.const p.2)

/-- `_initialize_component_dict` (`extension.py` lines 103-120): assign to
`__component` a dict literal of the defaulted fields' constant pairs. -/
def init_component_dict (fields : List FieldSpec) : Stmt :=
  Stmt.assign TMP_COMPONENT_DICT_NAME
    (Expr.dictE (init_component_dict_items fields))

/-- The body of `parser.parse_statements(('name:end' + tag_name,),
drop_needle=True)`: collect host statements until the token matching
`end` ++ tag is current; with `drop_needle` that end token is consumed
and not returned. A stream exhausted (or derailed) before the matching
end token is the unterminated-component error (Jinja2 fails the parse at
end of template). -/
def subparseUntilEnd (tag : String) : List Tok →
    Except CompileError (List Stmt × List Tok)
  | [] => .error .unterminatedComponent
  | Tok.stmtTok s :: rest =>
    (subparseUntilEnd tag rest).map (fun pr => (s :: pr.1, pr.2))
  | Tok.endName t :: rest =>
    if t = "end" ++ tag then .ok ([], rest) else .error .unterminatedComponent
  | _ :: _ => .error .unterminatedComponent

/-- `parser.parse_statements` as called on line 77: first expects the
`block_end` that closed the opening tag (consuming it), then subparses
until the matching end token, dropping it. -/
def parse_statements (tag : String) : List Tok →
    Except CompileError (List Stmt × List Tok)
  | Tok.blockEnd :: rest => subparseUntilEnd tag rest
  | _ => .error .syntaxError

/-- The `Call` node built on lines 61-63: `__component.update({...})`. -/
def updateCallExpr (items : List (String × Expr)) : Expr :=
  Expr.call (Expr.getattr (Expr.name TMP_COMPONENT_DICT_NAME) "update")
    [Expr.dictE items]

/-- The `prepare_component_dict` statement list of `parse` (`extension.py`
lines 55-74): the defaults dict assigned to `__component`; when the
attribute list is non-empty, `ExprStmt(__component.update({attribute
pairs}))`; then `component = __component` and `__component = None`. -/
def prepare_component_dict (fields : List FieldSpec)
    (component_dict_update_items : List (String × Expr)) : List Stmt :=
  let prepare1 := [init_component_dict fields]
  let prepare2 :=
    if component_dict_update_items.isEmpty then prepare1
    else prepare1 ++
      [Stmt.exprStmt (updateCallExpr component_dict_update_items)]
  prepare2 ++
    [Stmt.assign COMPONENT_DICT_NAME (Expr.name TMP_COMPONENT_DICT_NAME),
     Stmt.assign TMP_COMPONENT_DICT_NAME (Expr.const CVal.null)]

/-- The `Include` node of `parse` (`extension.py` lines 92-97): the
target is the `template` item of the `component` dictionary, read at
render time; `ignore_missing = False`; `with_context = True`. -/
def include_tag : Stmt :=
  Stmt.includeT
    (Expr.getitem (Expr.name COMPONENT_DICT_NAME)
      (Expr.const (CVal.str TEMPLATE_FIELD_NAME)))
    false true

/-- Result of compiling one tag occurrence: the emitted `Scope` node, the
stream left after the extension returns (for childless tags the
`block_end` is still current and is consumed by the host parser), and the
trace of default-factory invocations made during this compile step. -/
structure ParseResult : Type where
  node : Stmt
  rest : List Tok
  factoryTrace : List String

/-- `ComponentExtension.parse` (`extension.py` lines 32-101). The stream
is positioned at the tag-name token (`parser.stream.current[2]` is the
tag name; `next(parser.stream)` consumes it); `components` is
`self.environment.components` (the lookup raises `KeyError(tag_name)` —
modelled as `CompileError.unknownComponent` — when the tag is absent).
Then: parse the attribute pairs; build `prepare_component_dict` (the
defaults dict assign, the `update` call when there are attribute pairs,
`component = __component`, `__component = None`); for a children-bearing
class parse the tag body into a zero-argument `children` macro; and end
the fragment with an `Include` of `component["template"]` with
`ignore_missing = False` and `with_context = True`, all inside one
`Scope` node. -/
def ComponentExtension_parse (components : List (String × ComponentClass))
    (stream : List Tok) : Except CompileError ParseResult := do
  match stream with
  | Tok.name tag_name :: afterTag =>
    match components.lookup tag_name with
    | none => .error (.unknownComponent tag_name)
    | some component_class =>
      let field_names := component_class.fields.map (·.name)
      let has_children := CHILDREN_FIELD_NAME ∈ field_names
      let (component_dict_update_items, afterAttrs) ← parseAttrs afterTag
      let (children_macro_nodes, afterBody) ←
        if has_children then do
          let (inner_block, restBody) ← parse_statements tag_name afterAttrs
          pure ([Stmt.macroDef CHILDREN_MACRO_NAME [] inner_block], restBody)
        else
          pure (([] : List Stmt), afterAttrs)
      .ok { node := Stmt.scope
              (prepare_component_dict component_class.fields
                  component_dict_update_items ++
                children_macro_nodes ++ [include_tag]),
            rest := afterBody,
            factoryTrace := (init_component_dict_pairs component_class.fields).2 }
  | _ => .error .syntaxError

/-! ## Host render semantics

The extension only emits IR; execution is the host's (Jinja2's). The
claims about render-time behaviour depend on the host contract the spec
states: scoped blocks, variable binding, Python dict literals and
in-place `update`, zero-argument macros, the default `Undefined` value
(renders as the empty string, raises `UndefinedError` when called), and
`Include` with caller-context inheritance. The interpreter below models
exactly that contract. -/

/-- Values live at render time: baked constants, macro closures (the
bodies the `Macro` nodes of this program carry — always zero-argument
here), and Jinja2's default `Undefined`. -/
inductive RVal : Type where
  | val : CVal → RVal
  | macroV : List Stmt → RVal
  | undefined : RVal
deriving Repr

/-- A render-time scope: names bound to values, later bindings shadowing
earlier ones. -/
abbrev Ctx : Type := List (String × RVal)

/-- Render-time failures: Jinja2's `UndefinedError` (e.g. calling an
undefined name), `TemplateNotFound` from a non-ignore-missing include,
a host type error, and exhaustion of the interpreter's fuel. -/
inductive RenderError : Type where
  | undefinedError : RenderError
  | templateNotFound : String → RenderError
  | typeError : RenderError
  | outOfFuel : RenderError
deriving Repr, DecidableEq

/-- Python dict assignment `d[k] = v`: overwrite the value at an existing
key in place (insertion order kept), else append the new key at the
end. -/
def setKey : List (String × CVal) → String → CVal → List (String × CVal)
  | [], k, v => [(k, v)]
  | (k', v') :: rest, k, v =>
    if k' = k then (k', v) :: rest else (k', v') :: setKey rest k v

/-- Python `dict.update(delta)`: apply `setKey` for each pair of `delta`
in order. -/
def dictUpdate (xs delta : List (String × CVal)) : List (String × CVal) :=
  delta.foldl (fun acc p => setKey acc p.1 p.2) xs

/-- Python `str` of a value, as Jinja2 renders it inside `{{ ... }}`
(`Undefined` renders as the empty string). -/
def pyStr : CVal → String
  | CVal.null => "None"
  | CVal.bool b => cond b "True" "False"
  | CVal.int n => toString n
  | CVal.str s => s
  | CVal.list _ => "[...]"
  | CVal.dict _ => "{...}"

/-- How a computed value prints inside `{{ ... }}`. -/
def renderRVal : RVal → String
  | RVal.val v => pyStr v
  | RVal.macroV _ => ""
  | RVal.undefined => ""

/-- The template loader: template path to the template's compiled body
(`DictLoader` in the tests). -/
structure Env : Type where
  loader : List (String × List Stmt)

mutual

/-- Evaluate one expression. An absent name is Jinja2's `Undefined`;
attribute/item access on a dict falls back to the dict entry, or
`Undefined` when the key is missing; attribute/item access on `Undefined`
is `Undefined`; calling a macro value executes its body in the calling
scope and returns its output as a string; calling `Undefined` raises
`UndefinedError`. -/
def evalExpr : Nat → Env → Ctx → Expr → Except RenderError RVal
  | 0, _, _, _ => .error .outOfFuel
  | fuel + 1, env, ctx, e =>
    match e with
    | Expr.const v => .ok (RVal.val v)
    | Expr.name n => .ok ((ctx.lookup n).getD RVal.undefined)
    | Expr.getattr obj a =>
      (evalExpr fuel env ctx obj).map fun ov =>
        match ov with
        | RVal.val (CVal.dict xs) => ((xs.lookup a).map RVal.val).getD RVal.undefined
        | _ => RVal.undefined
    | Expr.getitem obj k => do
      let ov ← evalExpr fuel env ctx obj
      let kv ← evalExpr fuel env ctx k
      match ov, kv with
      | RVal.val (CVal.dict xs), RVal.val (CVal.str s) =>
        .ok (((xs.lookup s).map RVal.val).getD RVal.undefined)
      | RVal.val (CVal.list xs), RVal.val (CVal.int i) =>
        .ok (((xs.get? i.toNat).map RVal.val).getD RVal.undefined)
      | RVal.undefined, _ => .ok RVal.undefined
      | _, _ => .error .typeError
    | Expr.dictE items =>
      (evalPairs fuel env ctx items).map fun ps =>
        RVal.val (CVal.dict (dictUpdate [] ps))
    | Expr.listE xs =>
      (evalList fuel env ctx xs).map fun vs => RVal.val (CVal.list vs)
    | Expr.call fn args => do
      let fv ← evalExpr fuel env ctx fn
      match fv with
      | RVal.macroV body =>
        match args with
        | [] =>
          (execStmts fuel env ctx body).map fun pr => RVal.val (CVal.str pr.2)
        | _ :: _ => .error .typeError
      | RVal.undefined => .error .undefinedError
      | RVal.val _ => .error .typeError
    | Expr.concat a b => do
      let av ← evalExpr fuel env ctx a
      let bv ← evalExpr fuel env ctx b
      match av, bv with
      | RVal.val (CVal.str s1), RVal.val (CVal.str s2) =>
        .ok (RVal.val (CVal.str (s1 ++ s2)))
      | _, _ => .error .typeError

/-- Evaluate dict-literal items in order into concrete key/value pairs
(values must be concrete Python values). -/
def evalPairs : Nat → Env → Ctx → List (String × Expr) →
    Except RenderError (List (String × CVal))
  | 0, _, _, _ => .error .outOfFuel
  | _ + 1, _, _, [] => .ok []
  | fuel + 1, env, ctx, (k, e) :: rest => do
    let v ← evalExpr fuel env ctx e
    match v with
    | RVal.val cv => (evalPairs fuel env ctx rest).map fun ps => (k, cv) :: ps
    | _ => .error .typeError

/-- Evaluate list-literal elements in order. -/
def evalList : Nat → Env → Ctx → List Expr →
    Except RenderError (List CVal)
  | 0, _, _, _ => .error .outOfFuel
  | _ + 1, _, _, [] => .ok []
  | fuel + 1, env, ctx, e :: rest => do
    let v ← evalExpr fuel env ctx e
    match v with
    | RVal.val cv => (evalList fuel env ctx rest).map fun vs => cv :: vs
    | _ => .error .typeError

/-- Execute one statement, producing the updated scope and the emitted
output. `scope` executes its body and then restores the outer scope
(Jinja2's `Scope` node: bindings inside do not leak). `exprStmt` of the
`__component.update({...})` call this program emits performs Python's
in-place dict update: the dict bound to the name is replaced by its
updated copy (at this point of the emitted program the temporary name is
the only reference to the dict, so rebinding the name models the
mutation exactly). `includeT` resolves its target at render time; a
missing template is a hard error unless `ignore_missing`; with
`with_context` the included body runs in the caller's scope (its own
bindings do not escape the include). -/
def execStmt : Nat → Env → Ctx → Stmt → Except RenderError (Ctx × String)
  | 0, _, _, _ => .error .outOfFuel
  | fuel + 1, env, ctx, s =>
    match s with
    | Stmt.scope body =>
      (execStmts fuel env ctx body).map fun pr => (ctx, pr.2)
    | Stmt.assign n e =>
      (evalExpr fuel env ctx e).map fun v => ((n, v) :: ctx, "")
    | Stmt.exprStmt e =>
      match e with
      | Expr.call (Expr.getattr (Expr.name x) "update") [d] =>
        match ctx.lookup x with
        | some (RVal.val (CVal.dict xs)) => do
          let dv ← evalExpr fuel env ctx d
          match dv with
          | RVal.val (CVal.dict delta) =>
            .ok ((x, RVal.val (CVal.dict (dictUpdate xs delta))) :: ctx, "")
          | _ => .error .typeError
        | _ => .error .undefinedError
      | _ =>
        (evalExpr fuel env ctx e).map fun _ => (ctx, "")
    | Stmt.macroDef n _ body => .ok ((n, RVal.macroV body) :: ctx, "")
    | Stmt.includeT tmpl ignoreMissing withContext => do
      let tv ← evalExpr fuel env ctx tmpl
      match tv with
      | RVal.val (CVal.str path) =>
        match env.loader.lookup path with
        | some tbody =>
          if withContext then
            (execStmts fuel env ctx tbody).map fun pr => (ctx, pr.2)
          else
            (execStmts fuel env [] tbody).map fun pr => (ctx, pr.2)
        | none =>
          if ignoreMissing then .ok (ctx, "")
          else .error (.templateNotFound path)
      | RVal.undefined => .error .undefinedError
      | _ => .error .typeError
    | Stmt.output str => .ok (ctx, str)
    | Stmt.emit e =>
      (evalExpr fuel env ctx e).map fun v => (ctx, renderRVal v)

/-- Execute a statement sequence, threading the scope and concatenating
the output. -/
def execStmts : Nat → Env → Ctx → List Stmt → Except RenderError (Ctx × String)
  | 0, _, _, _ => .error .outOfFuel
  | _ + 1, _, ctx, [] => .ok (ctx, "")
  | fuel + 1, env, ctx, s :: rest => do
    let (ctx1, out1) ← execStmt fuel env ctx s
    let (ctx2, out2) ← execStmts fuel env ctx1 rest
    .ok (ctx2, out1 ++ out2)

end

/-! ## Concrete component classes and streams from the repository's tests
(`src/tests/newstyle/test_component_environment.py`) -/

/-- The `build_color_list` factory of `test_dataclass_fields_render`. -/
def build_color_list : Unit → CVal :=
  fun _ => CVal.list [CVal.str "red", CVal.str "green", CVal.str "blue"]

/-- The `color_list` field: `field(default_factory=build_color_list)`. -/
def color_list_field : FieldSpec :=
  { name := "color_list", default_factory := some build_color_list }

/-- The `PaintTool` dataclass of `test_dataclass_fields_render`:
`paint_color` and `effect` have no default, `default_color = 'red'`,
`color_list = field(default_factory=build_color_list)`,
`size = 10`, `properties = field(default_factory=list)`,
`template = 'paint_tool.html'`. -/
def paintToolFields : List FieldSpec :=
  [ { name := "paint_color" },
    { name := "effect" },
    { name := "default_color", default := some (CVal.str "red") },
    color_list_field,
    { name := "size", default := some (CVal.int 10) },
    { name := "properties", default_factory := some (fun _ => CVal.list []) },
    { name := "template", default := some (CVal.str "paint_tool.html") } ]

/-- `PaintTool` as registered: its tag name is the class name. -/
def paintToolClass : ComponentClass :=
  { name := "PaintTool", fields := paintToolFields }

/-- The tag occurrence of `painter.html`:
`{% PaintTool paint_color = "green", size = 15,
properties = ["soft", "tapered"] %}`. -/
def paintToolStream : List Tok :=
  [ Tok.name "PaintTool",
    Tok.name "paint_color", Tok.assign,
      Tok.exprTok (Expr.const (CVal.str "green")),
    Tok.comma, Tok.name "size", Tok.assign,
      Tok.exprTok (Expr.const (CVal.int 15)),
    Tok.comma, Tok.name "properties", Tok.assign,
      Tok.exprTok (Expr.listE
        [Expr.const (CVal.str "soft"), Expr.const (CVal.str "tapered")]),
    Tok.blockEnd ]

/-- The attribute pairs of the `PaintTool` occurrence, in source
order. -/
def paintToolAttrs : List (String × Expr) :=
  [("paint_color", Expr.const (CVal.str "green")),
   ("size", Expr.const (CVal.int 15)),
   ("properties", Expr.listE [Expr.const (CVal.str "soft"),
     Expr.const (CVal.str "tapered")])]

/-- Compiling the `PaintTool` occurrence. -/
def paintToolParse : Except CompileError ParseResult :=
  ComponentExtension_parse [("PaintTool", paintToolClass)] paintToolStream

/-- The binding program of the compiled `PaintTool` fragment: everything
the `Scope` node holds before its final `Include` — the scope in which
the included `paint_tool.html` renders is exactly the scope these
statements produce. -/
def paintToolBindings : List Stmt :=
  match paintToolParse with
  | .ok r =>
    match r.node with
    | Stmt.scope body => body.dropLast
    | _ => []
  | .error _ => []

/-- A loader holding `paint_tool.html` (its body is irrelevant to the
bindings the included template observes). -/
def paintToolEnv : Env := { loader := [("paint_tool.html", [])] }

/-- The scope the included template sees: the result of executing the
binding program from an empty outer scope. -/
def paintToolCtx : Ctx :=
  match execStmts 50 paintToolEnv [] paintToolBindings with
  | .ok pr => pr.1
  | .error _ => []

/-- Reading one field of the `component` binding, as `paint_tool.html`
does with `{{ component.paint_color }}` etc. -/
def paintToolField (field : String) : Except RenderError RVal :=
  evalExpr 50 paintToolEnv paintToolCtx
    (Expr.getattr (Expr.name COMPONENT_DICT_NAME) field)

/-- The `NoTemplateField` dataclass of `test_no_template_field`: a single
field `name : str` and no `template` field. -/
def noTemplateFieldClass : ComponentClass :=
  { name := "NoTemplateField", fields := [{ name := "name" }] }

/-- Modelled from the spec: `createEnvironment(schemas)` builds the
environment's tag-to-schema mapping (`environment.components`, keyed by
class name). The repository's `jinja2_component/environment.py` is not
under `src/`; its observable construction behaviour is pinned by the
repository's own test `test_no_template_field`, which constructs
`ComponentEnvironment([NoTemplateField])` successfully — despite the
schema lacking a template field — and only hits a `TypeError` later, at
`env.get_template(...)` (the test marks the error with a TODO). So
construction registers the classes and performs no schema validation. -/
def ComponentEnvironment_components (component_classes : List ComponentClass) :
    List (String × ComponentClass) :=
  component_classes.map fun c => (c.name, c)

/-- The `ComponentWithoutChildren` dataclass of
`test_access_children_in_childfree_component`: only
`template = 'component.html'`. -/
def componentWithoutChildrenClass : ComponentClass :=
  { name := "ComponentWithoutChildren",
    fields := [{ name := "template",
                 default := some (CVal.str "component.html") }] }

/-- The childfree occurrence `{% ComponentWithoutChildren %}` of
`main.html`. -/
def componentWithoutChildrenStream : List Tok :=
  [Tok.name "ComponentWithoutChildren", Tok.blockEnd]

/-- `component.html` of the childfree test: `{{ children() }}`. -/
def childfreeIncludedTemplate : List Stmt :=
  [Stmt.emit (Expr.call (Expr.name CHILDREN_MACRO_NAME) [])]

/-- The childfree test's loader. -/
def childfreeEnv : Env :=
  { loader := [("component.html", childfreeIncludedTemplate)] }

/-- Compiling the childfree occurrence. -/
def childfreeParse : Except CompileError ParseResult :=
  ComponentExtension_parse
    (ComponentEnvironment_components [componentWithoutChildrenClass])
    componentWithoutChildrenStream

/-- The dict value the defaults assignment produces at render time:
the `__component` dict after evaluating the emitted dict literal (a
Python dict literal applies its pairs in order, later duplicates
overwriting in place). -/
def component_defaults (fields : List FieldSpec) : List (String × CVal) :=
  dictUpdate [] (init_component_dict_pairs fields).1

/-- The `ComponentWithChildren` dataclass of
`test_component_with_children`: a `children` marker field (no default)
and `template = 'component.html'`. -/
def componentWithChildrenClass : ComponentClass :=
  { name := "ComponentWithChildren",
    fields := [{ name := "children" },
               { name := "template",
                 default := some (CVal.str "component.html") }] }

/-- The captured tag body of `test_component_with_children`:
`<span>Body of the tag ...</span>` (one host output statement). -/
def withChildrenBody : List Stmt :=
  [Stmt.output "<span>Body of the tag</span>"]

/-- The compiled fragment of the childfree occurrence (its `Scope`
node). -/
def childfreeNode : Stmt :=
  match childfreeParse with
  | .ok r => r.node
  | .error _ => Stmt.output ""

/-! ## Helper lemmas -/

theorem except_bind_ok {ε α β : Type} (x : Except ε α) (f : α → Except ε β)
    (b : β) : (x >>= f) = .ok b ↔ ∃ a, x = .ok a ∧ f a = .ok b := by
  cases x <;> simp [Bind.bind, Except.bind]

theorem except_map_ok {ε α β : Type} (x : Except ε α) (f : α → β)
    (b : β) : (x.map f) = .ok b ↔ ∃ a, x = .ok a ∧ f a = b := by
  cases x <;> simp [Except.map, eq_comm]

theorem lookup_cons {β : Type} (k n : String) (v : β)
    (rest : List (String × β)) :
    ((k, v) :: rest).lookup n = if n = k then some v else rest.lookup n := by
  simp only [List.lookup]
  by_cases h : n = k
  · simp [h]
  · simp [h, beq_false_of_ne h]

theorem lookup_append {β : Type} (l1 l2 : List (String × β)) (n : String) :
    (l1 ++ l2).lookup n = (l1.lookup n).or (l2.lookup n) := by
  induction l1 with
  | nil => simp
  | cons p l1 ih =>
    obtain ⟨k, v⟩ := p
    rw [List.cons_append, lookup_cons, lookup_cons]
    by_cases h : n = k <;> simp [h, ih]

theorem setKey_lookup (xs : List (String × CVal)) (k : String) (v : CVal)
    (n : String) :
    (setKey xs k v).lookup n = if n = k then some v else xs.lookup n := by
  induction xs with
  | nil => simp [setKey, lookup_cons]
  | cons p rest ih =>
    obtain ⟨k', v'⟩ := p
    by_cases hk : k' = k
    · subst hk
      rw [setKey, if_pos rfl, lookup_cons, lookup_cons]
      by_cases hn : n = k' <;> simp [hn]
    · rw [setKey, if_neg hk, lookup_cons, lookup_cons, ih]
      by_cases hn : n = k'
      · have hnk : ¬n = k := fun h => hk (hn.symm.trans h)
        simp [hn, hnk, hk]
      · by_cases hnk : n = k
        · have hkk : ¬k = k' := fun h => hn (hnk.trans h)
          simp [hn, hnk, hkk]
        · simp [hn, hnk]

theorem dictUpdate_lookup (delta xs : List (String × CVal)) (n : String) :
    (dictUpdate xs delta).lookup n =
      (delta.reverse.lookup n).or (xs.lookup n) := by
  induction delta generalizing xs with
  | nil => simp [dictUpdate]
  | cons p delta ih =>
    obtain ⟨k, v⟩ := p
    show (dictUpdate (setKey xs k v) delta).lookup n = _
    rw [ih, List.reverse_cons, lookup_append, setKey_lookup, lookup_cons]
    by_cases h : n = k <;> cases hd : delta.reverse.lookup n <;>
      simp [h, hd]

theorem evalPairs_const_ok (g : Nat) (env : Env) (ctx : Ctx)
    (pairs vs : List (String × CVal))
    (h : evalPairs g env ctx (pairs.map fun p => (p.1, Expr.const p.2)) =
      .ok vs) : vs = pairs := by
  induction pairs generalizing g vs with
  | nil =>
    cases g with
    | zero => simp [evalPairs] at h
    | succ g => simp [evalPairs] at h; exact h
  | cons p rest ih =>
    obtain ⟨k, c⟩ := p
    cases g with
    | zero => simp [evalPairs] at h
    | succ g =>
      cases g with
      | zero => simp [evalPairs, evalExpr, Bind.bind, Except.bind] at h
      | succ g' =>
        simp only [List.map_cons, evalPairs, evalExpr, Bind.bind,
          Except.bind] at h
        rw [except_map_ok] at h
        obtain ⟨a, ha, hv⟩ := h
        rw [ih _ _ ha] at hv
        exact hv.symm

theorem parse_ok_no_children (components : List (String × ComponentClass))
    (tag : String) (toks rest1 : List Tok) (cc : ComponentClass)
    (attrs : List (String × Expr))
    (hlk : components.lookup tag = some cc)
    (hnc : CHILDREN_FIELD_NAME ∉ cc.fields.map FieldSpec.name)
    (hattrs : parseAttrs toks = .ok (attrs, rest1)) :
    ComponentExtension_parse components (Tok.name tag :: toks) =
      .ok { node := Stmt.scope
              (prepare_component_dict cc.fields attrs ++ [include_tag]),
            rest := rest1,
            factoryTrace := (init_component_dict_pairs cc.fields).2 } := by
  simp [ComponentExtension_parse, hlk, hattrs, hnc, Bind.bind, Except.bind,
    pure, Except.pure]

theorem parse_ok_children (components : List (String × ComponentClass))
    (tag : String) (toks rest1 rest2 : List Tok) (cc : ComponentClass)
    (attrs : List (String × Expr)) (inner : List Stmt)
    (hlk : components.lookup tag = some cc)
    (hc : CHILDREN_FIELD_NAME ∈ cc.fields.map FieldSpec.name)
    (hattrs : parseAttrs toks = .ok (attrs, rest1))
    (hbody : parse_statements tag rest1 = .ok (inner, rest2)) :
    ComponentExtension_parse components (Tok.name tag :: toks) =
      .ok { node := Stmt.scope
              (prepare_component_dict cc.fields attrs ++
                [Stmt.macroDef CHILDREN_MACRO_NAME [] inner, include_tag]),
            rest := rest2,
            factoryTrace := (init_component_dict_pairs cc.fields).2 } := by
  simp [ComponentExtension_parse, hlk, hattrs, hc, hbody, Bind.bind,
    Except.bind, pure, Except.pure]

theorem parse_ok_inv (components : List (String × ComponentClass))
    (tag : String) (toks : List Tok) (cc : ComponentClass) (r : ParseResult)
    (hlk : components.lookup tag = some cc)
    (hp : ComponentExtension_parse components (Tok.name tag :: toks) = .ok r) :
    ∃ attrs rest1, parseAttrs toks = .ok (attrs, rest1) ∧
      ((CHILDREN_FIELD_NAME ∈ cc.fields.map FieldSpec.name ∧
        ∃ inner rest2, parse_statements tag rest1 = .ok (inner, rest2) ∧
          r = { node := Stmt.scope (prepare_component_dict cc.fields attrs ++
                  [Stmt.macroDef CHILDREN_MACRO_NAME [] inner, include_tag]),
                rest := rest2,
                factoryTrace := (init_component_dict_pairs cc.fields).2 }) ∨
       (CHILDREN_FIELD_NAME ∉ cc.fields.map FieldSpec.name ∧
        r = { node := Stmt.scope (prepare_component_dict cc.fields attrs ++
                [include_tag]),
              rest := rest1,
              factoryTrace := (init_component_dict_pairs cc.fields).2 })) := by
  simp only [ComponentExtension_parse, hlk] at hp
  cases ha : parseAttrs toks with
  | error e => rw [ha] at hp; simp [Bind.bind, Except.bind] at hp
  | ok pr =>
    obtain ⟨attrs, rest1⟩ := pr
    rw [ha] at hp
    refine ⟨attrs, rest1, rfl, ?_⟩
    by_cases hc : CHILDREN_FIELD_NAME ∈ cc.fields.map FieldSpec.name
    · simp only [hc, if_pos, Bind.bind, Except.bind] at hp
      cases hb : parse_statements tag rest1 with
      | error e => rw [hb] at hp; simp at hp
      | ok prb =>
        obtain ⟨inner, rest2⟩ := prb
        rw [hb] at hp
        simp only [pure, Except.pure] at hp
        refine Or.inl ⟨hc, inner, rest2, rfl, ?_⟩
        cases hp
        simp
    · simp only [hc, if_neg, Bind.bind, Except.bind, pure, Except.pure] at hp
      refine Or.inr ⟨hc, ?_⟩
      cases hp
      simp

theorem execStmts_nil_ok (fuel : Nat) (env : Env) (ctx ctx' : Ctx)
    (out : String) (h : execStmts fuel env ctx [] = .ok (ctx', out)) :
    ctx' = ctx ∧ out = "" := by
  cases fuel with
  | zero => simp [execStmts] at h
  | succ m =>
    simp [execStmts] at h
    exact ⟨h.1.symm, h.2.symm⟩

theorem execStmts_cons_ok (fuel : Nat) (env : Env) (ctx ctx' : Ctx)
    (s : Stmt) (rest : List Stmt) (out : String)
    (h : execStmts fuel env ctx (s :: rest) = .ok (ctx', out)) :
    ∃ m ctx1 out1 out2, fuel = m + 1 ∧
      execStmt m env ctx s = .ok (ctx1, out1) ∧
      execStmts m env ctx1 rest = .ok (ctx', out2) ∧ out = out1 ++ out2 := by
  cases fuel with
  | zero => simp [execStmts] at h
  | succ m =>
    simp only [execStmts, Bind.bind, Except.bind] at h
    cases h1 : execStmt m env ctx s with
    | error e => rw [h1] at h; simp at h
    | ok a =>
      obtain ⟨ctx1, out1⟩ := a
      rw [h1] at h
      dsimp only at h
      cases h2 : execStmts m env ctx1 rest with
      | error e => rw [h2] at h; simp at h
      | ok b =>
        obtain ⟨ctx2, out2⟩ := b
        rw [h2] at h
        simp at h
        exact ⟨m, ctx1, out1, out2, rfl, h1, by rw [h.1] at h2; exact h2,
          h.2.symm⟩

theorem execStmt_assign_ok (fuel : Nat) (env : Env) (ctx ctx' : Ctx)
    (n : String) (e : Expr) (out : String)
    (h : execStmt fuel env ctx (Stmt.assign n e) = .ok (ctx', out)) :
    ∃ m v, fuel = m + 1 ∧ evalExpr m env ctx e = .ok v ∧
      ctx' = (n, v) :: ctx ∧ out = "" := by
  cases fuel with
  | zero => simp [execStmt] at h
  | succ m =>
    simp only [execStmt] at h
    cases h1 : evalExpr m env ctx e with
    | error err => rw [h1] at h; simp [Except.map] at h
    | ok v =>
      rw [h1] at h
      simp [Except.map] at h
      exact ⟨m, v, rfl, h1, h.1.symm, h.2.symm⟩

theorem evalExpr_dictE_ok (fuel : Nat) (env : Env) (ctx : Ctx)
    (items : List (String × Expr)) (v : RVal)
    (h : evalExpr fuel env ctx (Expr.dictE items) = .ok v) :
    ∃ m ps, fuel = m + 1 ∧ evalPairs m env ctx items = .ok ps ∧
      v = RVal.val (CVal.dict (dictUpdate [] ps)) := by
  cases fuel with
  | zero => simp [evalExpr] at h
  | succ m =>
    simp only [evalExpr] at h
    cases h1 : evalPairs m env ctx items with
    | error err => rw [h1] at h; simp [Except.map] at h
    | ok ps =>
      rw [h1] at h
      simp [Except.map] at h
      exact ⟨m, ps, rfl, h1, h.symm⟩

theorem execStmt_update_ok (fuel : Nat) (env : Env) (ctx ctx' : Ctx)
    (attrs : List (String × Expr)) (out : String)
    (h : execStmt fuel env ctx (Stmt.exprStmt (updateCallExpr attrs)) =
      .ok (ctx', out)) :
    ∃ m xs delta, fuel = m + 1 ∧
      ctx.lookup TMP_COMPONENT_DICT_NAME = some (RVal.val (CVal.dict xs)) ∧
      evalExpr m env ctx (Expr.dictE attrs) =
        .ok (RVal.val (CVal.dict delta)) ∧
      ctx' = (TMP_COMPONENT_DICT_NAME,
        RVal.val (CVal.dict (dictUpdate xs delta))) :: ctx ∧ out = "" := by
  cases fuel with
  | zero => simp [execStmt] at h
  | succ m =>
    simp only [execStmt, updateCallExpr] at h
    cases h0 : ctx.lookup TMP_COMPONENT_DICT_NAME with
    | none => rw [h0] at h; simp at h
    | some w =>
      rw [h0] at h
      match w with
      | RVal.macroV _ => simp at h
      | RVal.undefined => simp at h
      | RVal.val CVal.null => simp at h
      | RVal.val (CVal.bool _) => simp at h
      | RVal.val (CVal.int _) => simp at h
      | RVal.val (CVal.str _) => simp at h
      | RVal.val (CVal.list _) => simp at h
      | RVal.val (CVal.dict xs) =>
        simp only [Bind.bind, Except.bind] at h
        cases h1 : evalExpr m env ctx (Expr.dictE attrs) with
        | error err => rw [h1] at h; simp at h
        | ok dv =>
          rw [h1] at h
          match dv with
          | RVal.macroV _ => simp at h
          | RVal.undefined => simp at h
          | RVal.val CVal.null => simp at h
          | RVal.val (CVal.bool _) => simp at h
          | RVal.val (CVal.int _) => simp at h
          | RVal.val (CVal.str _) => simp at h
          | RVal.val (CVal.list _) => simp at h
          | RVal.val (CVal.dict delta) =>
            simp at h
            exact ⟨m, xs, delta, rfl, rfl, h1, h.1.symm, h.2.symm⟩

theorem lookup_eq_none_of_not_mem {β : Type} (l : List (String × β))
    (n : String) (h : n ∉ l.map Prod.fst) : l.lookup n = none := by
  induction l with
  | nil => rfl
  | cons p t ih =>
    obtain ⟨k, v⟩ := p
    rw [lookup_cons]
    simp only [List.map_cons, List.mem_cons] at h
    push_neg at h
    rw [if_neg h.1]
    exact ih h.2

theorem mem_fst_setKey (xs : List (String × CVal)) (k : String) (v : CVal)
    (x : String) (h : x ∈ (setKey xs k v).map Prod.fst) :
    x ∈ xs.map Prod.fst ∨ x = k := by
  induction xs with
  | nil => simpa [setKey] using h
  | cons p t ih =>
    obtain ⟨k', v'⟩ := p
    by_cases hk : k' = k
    · subst hk
      rw [setKey, if_pos rfl] at h
      simp only [List.map_cons, List.mem_cons] at h ⊢
      exact Or.inl h
    · rw [setKey, if_neg hk] at h
      simp only [List.map_cons, List.mem_cons] at h ⊢
      rcases h with h | h
      · exact Or.inl (Or.inl h)
      · rcases ih h with h' | h'
        · exact Or.inl (Or.inr h')
        · exact Or.inr h'

theorem setKey_nodup (xs : List (String × CVal)) (k : String) (v : CVal)
    (h : (xs.map Prod.fst).Nodup) : ((setKey xs k v).map Prod.fst).Nodup := by
  induction xs with
  | nil => simp [setKey]
  | cons p t ih =>
    obtain ⟨k', v'⟩ := p
    simp only [List.map_cons, List.nodup_cons] at h
    by_cases hk : k' = k
    · subst hk
      rw [setKey, if_pos rfl]
      simpa using h
    · rw [setKey, if_neg hk]
      simp only [List.map_cons, List.nodup_cons]
      refine ⟨fun hm => ?_, ih h.2⟩
      rcases mem_fst_setKey t k v k' hm with h' | h'
      · exact h.1 h'
      · exact hk h'

theorem dictUpdate_nodup (delta xs : List (String × CVal))
    (h : (xs.map Prod.fst).Nodup) :
    ((dictUpdate xs delta).map Prod.fst).Nodup := by
  induction delta generalizing xs with
  | nil => exact h
  | cons p t ih =>
    obtain ⟨k, v⟩ := p
    exact ih (setKey xs k v) (setKey_nodup xs k v h)

theorem lookup_reverse_of_nodup (l : List (String × CVal))
    (h : (l.map Prod.fst).Nodup) (n : String) :
    l.reverse.lookup n = l.lookup n := by
  induction l with
  | nil => rfl
  | cons p t ih =>
    obtain ⟨k, v⟩ := p
    simp only [List.map_cons, List.nodup_cons] at h
    rw [List.reverse_cons, lookup_append, ih h.2]
    simp only [lookup_cons]
    by_cases hn : n = k
    · rw [if_pos hn, if_pos hn,
        lookup_eq_none_of_not_mem t n (by rw [hn]; exact h.1)]
      rfl
    · rw [if_neg hn, if_neg hn]
      cases ht : t.lookup n <;> rfl

theorem evalExpr_const_ok (fuel : Nat) (env : Env) (ctx : Ctx) (c : CVal)
    (v : RVal) (h : evalExpr fuel env ctx (Expr.const c) = .ok v) :
    v = RVal.val c := by
  cases fuel with
  | zero => simp [evalExpr] at h
  | succ m => simp [evalExpr] at h; exact h.symm

theorem evalExpr_name_ok (fuel : Nat) (env : Env) (ctx : Ctx) (n : String)
    (v : RVal) (h : evalExpr fuel env ctx (Expr.name n) = .ok v) :
    v = (ctx.lookup n).getD RVal.undefined := by
  cases fuel with
  | zero => simp [evalExpr] at h
  | succ m => simp [evalExpr] at h; exact h.symm

/-- Executing the emitted `prepare_component_dict` fragment: whenever it
runs to completion, the scope it leaves binds `component` to the
defaults dict (built from the fields in declaration order) updated by
the evaluated call-site attribute pairs (in source order, Python
`dict.update` semantics). -/
theorem exec_prepare_ok (fields : List FieldSpec)
    (attrs : List (String × Expr)) (fuel : Nat) (env : Env)
    (ctx ctx' : Ctx) (out : String)
    (h : execStmts fuel env ctx (prepare_component_dict fields attrs) =
      .ok (ctx', out)) :
    ∃ attrVals : List (String × CVal),
      ctx'.lookup COMPONENT_DICT_NAME = some (RVal.val (CVal.dict
        (dictUpdate (dictUpdate [] (init_component_dict_pairs fields).1)
          (dictUpdate [] attrVals)))) ∧
      (attrs.isEmpty = true → attrVals = []) ∧
      (attrs.isEmpty = false → ∃ g, evalPairs g env
        ((TMP_COMPONENT_DICT_NAME, RVal.val (CVal.dict
          (dictUpdate [] (init_component_dict_pairs fields).1))) :: ctx)
        attrs = .ok attrVals) := by
  cases hemp : attrs.isEmpty with
  | true =>
    simp only [prepare_component_dict, hemp, if_pos, List.singleton_append,
      List.cons_append, List.nil_append] at h
    obtain ⟨m1, ctxA, o1, o2, rfl, hs1, hrest1, rfl⟩ :=
      execStmts_cons_ok _ _ _ _ _ _ _ h
    rw [init_component_dict] at hs1
    obtain ⟨m2, v, rfl, he1, rfl, rfl⟩ :=
      execStmt_assign_ok _ _ _ _ _ _ _ hs1
    obtain ⟨m3, ps, rfl, hps, rfl⟩ := evalExpr_dictE_ok _ _ _ _ _ he1
    rw [init_component_dict_items] at hps
    have hps' := evalPairs_const_ok _ _ _ _ _ hps
    subst hps'
    obtain ⟨m4, ctxB, o3, o4, -, hs2, hrest2, rfl⟩ :=
      execStmts_cons_ok _ _ _ _ _ _ _ hrest1
    obtain ⟨m5, v2, rfl, he2, rfl, rfl⟩ :=
      execStmt_assign_ok _ _ _ _ _ _ _ hs2
    have hv2 := evalExpr_name_ok _ _ _ _ _ he2
    rw [lookup_cons, if_pos rfl] at hv2
    simp only [Option.getD_some] at hv2
    subst hv2
    obtain ⟨m6, ctxC, o5, o6, -, hs3, hrest3, rfl⟩ :=
      execStmts_cons_ok _ _ _ _ _ _ _ hrest2
    obtain ⟨m7, v3, rfl, he3, rfl, rfl⟩ :=
      execStmt_assign_ok _ _ _ _ _ _ _ hs3
    have hv3 := evalExpr_const_ok _ _ _ _ _ he3
    subst hv3
    obtain ⟨hctx, -⟩ := execStmts_nil_ok _ _ _ _ _ hrest3
    subst hctx
    refine ⟨[], ?_, fun _ => rfl, ?_⟩
    · rw [lookup_cons,
        if_neg (by decide : ¬COMPONENT_DICT_NAME = TMP_COMPONENT_DICT_NAME),
        lookup_cons, if_pos rfl]
      rfl
    · exact fun hc => nomatch hc
  | false =>
    simp only [prepare_component_dict, hemp, Bool.false_eq_true, if_false,
      List.cons_append, List.nil_append] at h
    obtain ⟨m1, ctxA, o1, o2, rfl, hs1, hrest1, rfl⟩ :=
      execStmts_cons_ok _ _ _ _ _ _ _ h
    rw [init_component_dict] at hs1
    obtain ⟨m2, v, rfl, he1, rfl, rfl⟩ :=
      execStmt_assign_ok _ _ _ _ _ _ _ hs1
    obtain ⟨m3, ps, rfl, hps, rfl⟩ := evalExpr_dictE_ok _ _ _ _ _ he1
    rw [init_component_dict_items] at hps
    have hps' := evalPairs_const_ok _ _ _ _ _ hps
    subst hps'
    obtain ⟨m4, ctxB, o3, o4, -, hs2, hrest2, rfl⟩ :=
      execStmts_cons_ok _ _ _ _ _ _ _ hrest1
    obtain ⟨m5, xs, delta, rfl, hlkT, hdelta, rfl, rfl⟩ :=
      execStmt_update_ok _ _ _ _ _ _ hs2
    rw [lookup_cons, if_pos rfl] at hlkT
    have hxs : xs = dictUpdate []
        (init_component_dict_pairs fields).1 := by
      cases hlkT; rfl
    subst hxs
    obtain ⟨m6, ps2, rfl, hps2, hdel⟩ := evalExpr_dictE_ok _ _ _ _ _ hdelta
    have hdel' : delta = dictUpdate [] ps2 := by
      cases hdel; rfl
    subst hdel'
    obtain ⟨m7, ctxC, o5, o6, -, hs3, hrest3, rfl⟩ :=
      execStmts_cons_ok _ _ _ _ _ _ _ hrest2
    obtain ⟨m8, v2, rfl, he2, rfl, rfl⟩ :=
      execStmt_assign_ok _ _ _ _ _ _ _ hs3
    have hv2 := evalExpr_name_ok _ _ _ _ _ he2
    rw [lookup_cons, if_pos rfl] at hv2
    simp only [Option.getD_some] at hv2
    subst hv2
    obtain ⟨m9, ctxD, o7, o8, -, hs4, hrest4, rfl⟩ :=
      execStmts_cons_ok _ _ _ _ _ _ _ hrest3
    obtain ⟨m10, v3, rfl, he3, rfl, rfl⟩ :=
      execStmt_assign_ok _ _ _ _ _ _ _ hs4
    have hv3 := evalExpr_const_ok _ _ _ _ _ he3
    subst hv3
    obtain ⟨hctx, -⟩ := execStmts_nil_ok _ _ _ _ _ hrest4
    subst hctx
    refine ⟨ps2, ?_, ?_, fun _ => ⟨m6, hps2⟩⟩
    · rw [lookup_cons,
        if_neg (by decide : ¬COMPONENT_DICT_NAME = TMP_COMPONENT_DICT_NAME),
        lookup_cons, if_pos rfl]
    · exact fun hc => nomatch hc

theorem trace_subset (fields : List FieldSpec) (x : String)
    (h : x ∈ (init_component_dict_pairs fields).2) :
    x ∈ fields.map FieldSpec.name := by
  induction fields with
  | nil => simp [init_component_dict_pairs] at h
  | cons f rest ih =>
    cases hd : f.default with
    | some v =>
      simp only [init_component_dict_pairs, hd] at h
      exact List.mem_cons_of_mem _ (ih h)
    | none =>
      cases hf : f.default_factory with
      | some fac =>
        simp only [init_component_dict_pairs, hd, hf] at h
        rcases List.mem_cons.mp h with rfl | h'
        · exact List.mem_cons_self _ _
        · exact List.mem_cons_of_mem _ (ih h')
      | none =>
        simp only [init_component_dict_pairs, hd, hf] at h
        exact List.mem_cons_of_mem _ (ih h)

theorem init_pairs_factory_field (fields : List FieldSpec) (f : FieldSpec)
    (fac : Unit → CVal) (hnd : (fields.map FieldSpec.name).Nodup)
    (hmem : f ∈ fields) (hd : f.default = none)
    (hfac : f.default_factory = some fac) :
    (init_component_dict_pairs fields).2.count f.name = 1 ∧
    (init_component_dict_pairs fields).1.lookup f.name = some (fac ()) := by
  induction fields with
  | nil => cases hmem
  | cons g rest ih =>
    simp only [List.map_cons, List.nodup_cons] at hnd
    rcases List.mem_cons.mp hmem with rfl | hmem'
    · simp only [init_component_dict_pairs, hd, hfac]
      constructor
      · rw [List.count_cons_self, List.count_eq_zero.mpr
          (fun hx => hnd.1 (trace_subset rest f.name hx))]
      · rw [lookup_cons, if_pos rfl]
    · have hne : g.name ≠ f.name :=
        fun h => hnd.1 (h ▸ List.mem_map_of_mem FieldSpec.name hmem')
      obtain ⟨ihc, ihl⟩ := ih hnd.2 hmem'
      cases hdg : g.default with
      | some v =>
        simp only [init_component_dict_pairs, hdg]
        refine ⟨ihc, ?_⟩
        rw [lookup_cons, if_neg (fun h => hne h.symm)]
        exact ihl
      | none =>
        cases hfg : g.default_factory with
        | some fg =>
          simp only [init_component_dict_pairs, hdg, hfg]
          constructor
          · rw [List.count_cons_of_ne (fun h => hne h.symm), ihc]
          · rw [lookup_cons, if_neg (fun h => hne h.symm)]
            exact ihl
        | none =>
          simp only [init_component_dict_pairs, hdg, hfg]
          exact ⟨ihc, ihl⟩

theorem lookup_map_const (l : List (String × CVal)) (n : String) :
    (l.map fun p => (p.1, Expr.const p.2)).lookup n =
      (l.lookup n).map Expr.const := by
  induction l with
  | nil => rfl
  | cons p t ih =>
    obtain ⟨k, v⟩ := p
    rw [List.map_cons, lookup_cons, lookup_cons]
    by_cases h : n = k <;> simp [h, ih]

theorem prepare_head (fields : List FieldSpec)
    (attrs : List (String × Expr)) :
    ∃ tail, prepare_component_dict fields attrs =
      init_component_dict fields :: tail := by
  cases h : attrs.isEmpty <;> simp [prepare_component_dict, h]

theorem subparseUntilEnd_ok (tag : String) (stmts : List Stmt)
    (after : List Tok) :
    subparseUntilEnd tag
      (stmts.map Tok.stmtTok ++ Tok.endName ("end" ++ tag) :: after) =
      .ok (stmts, after) := by
  induction stmts with
  | nil => simp [subparseUntilEnd]
  | cons s rest ih => simp [subparseUntilEnd, ih, Except.map]

theorem subparseUntilEnd_exhausted (tag : String) (stmts : List Stmt) :
    subparseUntilEnd tag (stmts.map Tok.stmtTok) =
      .error .unterminatedComponent := by
  induction stmts with
  | nil => rfl
  | cons s rest ih => simp [subparseUntilEnd, ih, Except.map]

theorem parse_children_body_error (components : List (String × ComponentClass))
    (tag : String) (toks rest1 : List Tok) (cc : ComponentClass)
    (attrs : List (String × Expr)) (e : CompileError)
    (hlk : components.lookup tag = some cc)
    (hc : CHILDREN_FIELD_NAME ∈ cc.fields.map FieldSpec.name)
    (hattrs : parseAttrs toks = .ok (attrs, rest1))
    (hbody : parse_statements tag rest1 = .error e) :
    ComponentExtension_parse components (Tok.name tag :: toks) = .error e := by
  simp [ComponentExtension_parse, hlk, hattrs, hc, hbody, Bind.bind,
    Except.bind]

theorem no_macro_in_prepare (fields : List FieldSpec)
    (attrs : List (String × Expr)) (nm : String) (args : List String)
    (b : List Stmt) :
    Stmt.macroDef nm args b ∉
      prepare_component_dict fields attrs ++ [include_tag] := by
  intro hmem
  cases h : attrs.isEmpty <;>
    simp [prepare_component_dict, h, include_tag, init_component_dict] at hmem

theorem dictUpdate_override (D0 attrVals : List (String × CVal))
    (n : String) :
    (∀ v, attrVals.reverse.lookup n = some v →
      (dictUpdate D0 (dictUpdate [] attrVals)).lookup n = some v) ∧
    (n ∉ attrVals.map Prod.fst →
      (dictUpdate D0 (dictUpdate [] attrVals)).lookup n = D0.lookup n) := by
  have hnodup : ((dictUpdate [] attrVals).map Prod.fst).Nodup :=
    dictUpdate_nodup attrVals [] (by simp)
  have h1 : (dictUpdate [] attrVals).reverse.lookup n =
      attrVals.reverse.lookup n := by
    rw [lookup_reverse_of_nodup _ hnodup, dictUpdate_lookup]
    cases attrVals.reverse.lookup n <;> rfl
  constructor
  · intro v hv
    rw [dictUpdate_lookup, h1, hv]
    rfl
  · intro hn
    have hnone : attrVals.reverse.lookup n = none := by
      apply lookup_eq_none_of_not_mem
      simpa using hn
    rw [dictUpdate_lookup, h1, hnone]
    rfl

/-! ## The claims -/

/-- C3: when `parse` is invoked with the stream positioned at a tag name
for which the registry lookup (`self.environment.components[tag_name]`,
`extension.py` line 35) finds no component class, compilation fails with
the unknown-component error (Python's `KeyError`) carrying that tag
name. -/
theorem C3_unknown_tag_fails (components : List (String × ComponentClass))
    (tag : String) (toks : List Tok)
    (h : components.lookup tag = none) :
    ComponentExtension_parse components (Tok.name tag :: toks) =
      .error (CompileError.unknownComponent tag) := by
  simp [ComponentExtension_parse, h]

/-- Concrete instance of `C3_unknown_tag_fails`: an empty registry and
the tag `Card`. -/
theorem C3_witness :
    ([] : List (String × ComponentClass)).lookup "Card" = none ∧
    ComponentExtension_parse [] [Tok.name "Card"] =
      .error (CompileError.unknownComponent "Card") :=
  ⟨rfl, C3_unknown_tag_fails [] "Card" [] rfl⟩

/-- C1: for a registered schema field with a factory default (no stored
default, `default_factory` present), compiling one tag occurrence
invokes the factory exactly once during that compile step (the
factory-invocation trace of the compile holds the field's name exactly
once), the returned value is emitted as a constant (`Const`) entry of
the defaults dict literal inside the binding program, and every render
evaluates that constant to the identical baked value in any scope — the
factory is never recomputed per render (the render semantics has no
access to factories at all). -/
theorem C1_factory_invoked_once_and_baked
    (components : List (String × ComponentClass)) (tag : String)
    (toks : List Tok) (cc : ComponentClass) (r : ParseResult)
    (f : FieldSpec) (fac : Unit → CVal)
    (hlk : components.lookup tag = some cc)
    (hnd : (cc.fields.map FieldSpec.name).Nodup)
    (hmem : f ∈ cc.fields) (hd : f.default = none)
    (hfac : f.default_factory = some fac)
    (hp : ComponentExtension_parse components (Tok.name tag :: toks) =
      .ok r) :
    r.factoryTrace.count f.name = 1 ∧
    (init_component_dict_items cc.fields).lookup f.name =
      some (Expr.const (fac ())) ∧
    (∃ tail, r.node = Stmt.scope (Stmt.assign TMP_COMPONENT_DICT_NAME
      (Expr.dictE (init_component_dict_items cc.fields)) :: tail)) ∧
    ∀ fuel env ctx, evalExpr (fuel + 1) env ctx (Expr.const (fac ())) =
      .ok (RVal.val (fac ())) := by
  obtain ⟨hcnt, hlkp⟩ :=
    init_pairs_factory_field cc.fields f fac hnd hmem hd hfac
  obtain ⟨attrs, rest1, hattrs, hcase⟩ := parse_ok_inv _ _ _ _ _ hlk hp
  have htr : r.factoryTrace = (init_component_dict_pairs cc.fields).2 ∧
      ∃ more, r.node =
        Stmt.scope (prepare_component_dict cc.fields attrs ++ more) := by
    rcases hcase with ⟨-, inner, rest2, -, heq⟩ | ⟨-, heq⟩ <;>
      rw [heq] <;> exact ⟨rfl, _, rfl⟩
  refine ⟨htr.1 ▸ hcnt, ?_, ?_, fun fuel env ctx => rfl⟩
  · rw [init_component_dict_items, lookup_map_const, hlkp]
    rfl
  · obtain ⟨more, hnode⟩ := htr.2
    obtain ⟨tail, hprep⟩ := prepare_head cc.fields attrs
    refine ⟨tail ++ more, ?_⟩
    rw [hnode, hprep]
    simp [init_component_dict]

/-- Concrete instance of `C1_factory_invoked_once_and_baked`: the
`color_list` factory field of `PaintTool`, compiled from the
`painter.html` occurrence. -/
theorem C1_witness :
    ∃ r, ComponentExtension_parse [("PaintTool", paintToolClass)]
        paintToolStream = .ok r ∧
      (r.factoryTrace.count "color_list" = 1 ∧
        (init_component_dict_items paintToolClass.fields).lookup
          "color_list" = some (Expr.const (build_color_list ())) ∧
        (∃ tail, r.node = Stmt.scope (Stmt.assign TMP_COMPONENT_DICT_NAME
          (Expr.dictE (init_component_dict_items paintToolClass.fields)) ::
            tail)) ∧
        ∀ fuel env ctx,
          evalExpr (fuel + 1) env ctx (Expr.const (build_color_list ())) =
            .ok (RVal.val (build_color_list ()))) :=
  ⟨_, rfl, C1_factory_invoked_once_and_baked
    [("PaintTool", paintToolClass)] "PaintTool" paintToolStream.tail
    paintToolClass _ color_list_field build_color_list rfl (by decide)
    (List.Mem.tail _ (List.Mem.tail _ (List.Mem.tail _ (List.Mem.head _))))
    rfl rfl rfl⟩

/-- C8: every successfully compiled tag occurrence is one `Scope` node —
the aggregate `component` binding, the `__component` temporary and any
`children` macro are all introduced inside it — and executing the
fragment in any surrounding scope returns that scope unchanged: the
fragment contributes only output, never bindings. The quantification
over arbitrary surrounding scopes covers in particular the scope of an
enclosing component's captured body, so a nested component binds
independently and its inner bindings do not leak outward. -/
theorem C8_scope_no_leak (components : List (String × ComponentClass))
    (tag : String) (toks : List Tok) (cc : ComponentClass) (r : ParseResult)
    (hlk : components.lookup tag = some cc)
    (hp : ComponentExtension_parse components (Tok.name tag :: toks) =
      .ok r) :
    ∃ body, r.node = Stmt.scope body ∧
      ∀ fuel env ctx res, execStmt fuel env ctx r.node = .ok res →
        res.1 = ctx := by
  obtain ⟨attrs, rest1, hattrs, hcase⟩ := parse_ok_inv _ _ _ _ _ hlk hp
  have hnode : ∃ body, r.node = Stmt.scope body := by
    rcases hcase with ⟨-, i, r2, -, heq⟩ | ⟨-, heq⟩ <;> rw [heq] <;>
      exact ⟨_, rfl⟩
  obtain ⟨body, hb⟩ := hnode
  refine ⟨body, hb, fun fuel env ctx res hex => ?_⟩
  rw [hb] at hex
  cases fuel with
  | zero => simp [execStmt] at hex
  | succ m =>
    simp only [execStmt] at hex
    cases hrun : execStmts m env ctx body with
    | error e => rw [hrun] at hex; simp [Except.map] at hex
    | ok pr =>
      rw [hrun] at hex
      simp [Except.map] at hex
      rw [← hex]

/-- Concrete instance of `C8_scope_no_leak`: the compiled childfree
occurrence executed from the empty outer scope ends with the empty
scope. -/
theorem C8_witness :
    ∃ r, childfreeParse = .ok r ∧ ∃ body, r.node = Stmt.scope body ∧
      ∀ fuel env ctx res, execStmt fuel env ctx r.node = .ok res →
        res.1 = ctx :=
  ⟨_, rfl, C8_scope_no_leak
    (ComponentEnvironment_components [componentWithoutChildrenClass])
    "ComponentWithoutChildren" [Tok.blockEnd]
    componentWithoutChildrenClass _ rfl rfl⟩

/-- C10: whether a schema is children-bearing is decided solely by the
presence of a field whose name is exactly `children` among the declared
field names (`CHILDREN_FIELD_NAME in field_names`, `extension.py` lines
36-37) — whatever that field's type or default — and the reserved field
name and reserved macro name are the same literal `children`: a
successfully compiled occurrence's fragment contains a (`children`,
zero-argument) macro iff the schema's field names contain `children`. -/
theorem C10_children_detection (components : List (String × ComponentClass))
    (tag : String) (toks : List Tok) (cc : ComponentClass) (r : ParseResult)
    (hlk : components.lookup tag = some cc)
    (hp : ComponentExtension_parse components (Tok.name tag :: toks) =
      .ok r) :
    CHILDREN_FIELD_NAME = "children" ∧
    CHILDREN_MACRO_NAME = CHILDREN_FIELD_NAME ∧
    ∃ body, r.node = Stmt.scope body ∧
      ((CHILDREN_FIELD_NAME ∈ cc.fields.map FieldSpec.name) ↔
        ∃ inner, Stmt.macroDef CHILDREN_MACRO_NAME [] inner ∈ body) := by
  obtain ⟨attrs, rest1, hattrs, hcase⟩ := parse_ok_inv _ _ _ _ _ hlk hp
  refine ⟨rfl, rfl, ?_⟩
  rcases hcase with ⟨hc, inner, rest2, hps, heq⟩ | ⟨hc, heq⟩
  · rw [heq]
    refine ⟨_, rfl, fun _ => ⟨inner, by simp⟩, fun _ => hc⟩
  · rw [heq]
    refine ⟨_, rfl, fun h => absurd h hc, ?_⟩
    rintro ⟨inner, hmem⟩
    exact absurd hmem (no_macro_in_prepare cc.fields attrs _ _ _)

/-- Concrete instance of `C10_children_detection`: `PaintTool` has no
field named `children`, and its compiled fragment holds no macro. -/
theorem C10_witness :
    ∃ r, ComponentExtension_parse [("PaintTool", paintToolClass)]
        paintToolStream = .ok r ∧
      (CHILDREN_FIELD_NAME = "children" ∧
       CHILDREN_MACRO_NAME = CHILDREN_FIELD_NAME ∧
       ∃ body, r.node = Stmt.scope body ∧
        ((CHILDREN_FIELD_NAME ∈ paintToolClass.fields.map FieldSpec.name) ↔
          ∃ inner, Stmt.macroDef CHILDREN_MACRO_NAME [] inner ∈ body)) :=
  ⟨_, rfl, C10_children_detection [("PaintTool", paintToolClass)]
    "PaintTool" paintToolStream.tail paintToolClass _ rfl rfl⟩

/-- C2: the emitted binding program binds, first, every defaulted schema
field to its default in field-declaration order (the defaults dict
literal `init_component_dict`), then applies every explicit call-site
attribute assignment in source order through one `dict.update` (the
program shape, first conjunct); executing the program binds `component`
to the defaults dict updated with the evaluated attribute pairs, where a
name assigned in the attribute list ends up with the call-site
expression's evaluated value — its last occurrence, overwriting an
already-default-bound entry wherever it sits in declaration order, or
added when previously unseen — while names not in the attribute list
keep their default entries (second conjunct). -/
theorem C2_defaults_then_overrides
    (components : List (String × ComponentClass)) (tag : String)
    (toks rest1 : List Tok) (cc : ComponentClass)
    (attrs : List (String × Expr)) (r : ParseResult)
    (hlk : components.lookup tag = some cc)
    (hattrs : parseAttrs toks = .ok (attrs, rest1))
    (hp : ComponentExtension_parse components (Tok.name tag :: toks) =
      .ok r) :
    (∃ more, r.node =
      Stmt.scope (prepare_component_dict cc.fields attrs ++ more)) ∧
    (∀ fuel env ctx ctx' out,
      execStmts fuel env ctx (prepare_component_dict cc.fields attrs) =
        .ok (ctx', out) →
      ∃ attrVals,
        (attrs.isEmpty = false → ∃ g, evalPairs g env
          ((TMP_COMPONENT_DICT_NAME,
            RVal.val (CVal.dict (component_defaults cc.fields))) :: ctx)
          attrs = .ok attrVals) ∧
        (attrs.isEmpty = true → attrVals = []) ∧
        ctx'.lookup COMPONENT_DICT_NAME = some (RVal.val (CVal.dict
          (dictUpdate (component_defaults cc.fields)
            (dictUpdate [] attrVals)))) ∧
        (∀ n v, attrVals.reverse.lookup n = some v →
          (dictUpdate (component_defaults cc.fields)
            (dictUpdate [] attrVals)).lookup n = some v) ∧
        (∀ n, n ∉ attrVals.map Prod.fst →
          (dictUpdate (component_defaults cc.fields)
            (dictUpdate [] attrVals)).lookup n =
            (component_defaults cc.fields).lookup n)) := by
  obtain ⟨attrs2, rest2, hattrs2, hcase⟩ := parse_ok_inv _ _ _ _ _ hlk hp
  have hsame : attrs2 = attrs := by
    rw [hattrs] at hattrs2
    cases hattrs2
    rfl
  subst hsame
  constructor
  · rcases hcase with ⟨-, inner, r3, -, heq⟩ | ⟨-, heq⟩ <;> rw [heq] <;>
      exact ⟨_, rfl⟩
  · intro fuel env ctx ctx' out hex
    obtain ⟨attrVals, hlkup, hempty, hfull⟩ :=
      exec_prepare_ok cc.fields attrs2 fuel env ctx ctx' out hex
    exact ⟨attrVals, hfull, hempty, hlkup,
      fun n v hv => (dictUpdate_override _ attrVals n).1 v hv,
      fun n hn => (dictUpdate_override _ attrVals n).2 hn⟩

/-- Concrete instance of `C2_defaults_then_overrides`: the `PaintTool`
occurrence with its three call-site attribute pairs. -/
theorem C2_witness :
    ∃ r, ComponentExtension_parse [("PaintTool", paintToolClass)]
        paintToolStream = .ok r ∧
      ((∃ more, r.node = Stmt.scope
        (prepare_component_dict paintToolClass.fields paintToolAttrs ++
          more)) ∧
       ∀ fuel env ctx ctx' out,
        execStmts fuel env ctx
          (prepare_component_dict paintToolClass.fields paintToolAttrs) =
          .ok (ctx', out) →
        ∃ attrVals,
          (paintToolAttrs.isEmpty = false → ∃ g, evalPairs g env
            ((TMP_COMPONENT_DICT_NAME, RVal.val (CVal.dict
              (component_defaults paintToolClass.fields))) :: ctx)
            paintToolAttrs = .ok attrVals) ∧
          (paintToolAttrs.isEmpty = true → attrVals = []) ∧
          ctx'.lookup COMPONENT_DICT_NAME = some (RVal.val (CVal.dict
            (dictUpdate (component_defaults paintToolClass.fields)
              (dictUpdate [] attrVals)))) ∧
          (∀ n v, attrVals.reverse.lookup n = some v →
            (dictUpdate (component_defaults paintToolClass.fields)
              (dictUpdate [] attrVals)).lookup n = some v) ∧
          (∀ n, n ∉ attrVals.map Prod.fst →
            (dictUpdate (component_defaults paintToolClass.fields)
              (dictUpdate [] attrVals)).lookup n =
              (component_defaults paintToolClass.fields).lookup n)) :=
  ⟨_, rfl, C2_defaults_then_overrides [("PaintTool", paintToolClass)]
    "PaintTool" paintToolStream.tail [Tok.blockEnd] paintToolClass
    paintToolAttrs _ rfl rfl rfl⟩

/-- C5: for a children-bearing schema, compiling a tag occurrence parses
the tag body as host statements up to the matching end tag
(`parse_statements(('name:end' + tag_name,), drop_needle=True)`): the
captured statements become the body of a zero-parameter macro bound to
the reserved name `children` placed before the include (so it is
invocable from inside the included template), the end-tag token is
consumed (the stream resumes after it) and appears nowhere in the
output, and a stream exhausted before the matching end tag fails with
the unterminated-component error. -/
theorem C5_children_capture (components : List (String × ComponentClass))
    (tag : String) (toks bodyToks : List Tok) (cc : ComponentClass)
    (attrs : List (String × Expr))
    (hlk : components.lookup tag = some cc)
    (hc : CHILDREN_FIELD_NAME ∈ cc.fields.map FieldSpec.name)
    (hattrs : parseAttrs toks = .ok (attrs, Tok.blockEnd :: bodyToks)) :
    (∀ (stmts : List Stmt) (after : List Tok),
      bodyToks = stmts.map Tok.stmtTok ++
        Tok.endName ("end" ++ tag) :: after →
      ComponentExtension_parse components (Tok.name tag :: toks) =
        .ok { node := Stmt.scope (prepare_component_dict cc.fields attrs ++
                [Stmt.macroDef CHILDREN_MACRO_NAME [] stmts, include_tag]),
              rest := after,
              factoryTrace := (init_component_dict_pairs cc.fields).2 } ∧
      ∀ fuel env ctx,
        execStmt (fuel + 1) env ctx
          (Stmt.macroDef CHILDREN_MACRO_NAME [] stmts) =
          .ok ((CHILDREN_MACRO_NAME, RVal.macroV stmts) :: ctx, "")) ∧
    (∀ (stmts : List Stmt), bodyToks = stmts.map Tok.stmtTok →
      ComponentExtension_parse components (Tok.name tag :: toks) =
        .error CompileError.unterminatedComponent) := by
  constructor
  · rintro stmts after rfl
    refine ⟨?_, fun fuel env ctx => rfl⟩
    exact parse_ok_children components tag toks _ after cc attrs stmts hlk
      hc hattrs (subparseUntilEnd_ok tag stmts after)
  · rintro stmts rfl
    exact parse_children_body_error components tag toks _ cc attrs _ hlk hc
      hattrs (subparseUntilEnd_exhausted tag stmts)

/-- Concrete instance of `C5_children_capture`: the
`ComponentWithChildren` occurrence of `test_component_with_children`,
with one captured output statement; the end tag `endComponentWithChildren`
is consumed (the remaining stream is empty). -/
theorem C5_witness :
    ComponentExtension_parse
      (ComponentEnvironment_components [componentWithChildrenClass])
      (Tok.name "ComponentWithChildren" :: Tok.blockEnd ::
        (withChildrenBody.map Tok.stmtTok ++
          Tok.endName ("end" ++ "ComponentWithChildren") :: [])) =
      .ok { node := Stmt.scope
              (prepare_component_dict componentWithChildrenClass.fields [] ++
                [Stmt.macroDef CHILDREN_MACRO_NAME [] withChildrenBody,
                 include_tag]),
            rest := [],
            factoryTrace :=
              (init_component_dict_pairs
                componentWithChildrenClass.fields).2 } ∧
    ∀ fuel env ctx,
      execStmt (fuel + 1) env ctx
        (Stmt.macroDef CHILDREN_MACRO_NAME [] withChildrenBody) =
        .ok ((CHILDREN_MACRO_NAME, RVal.macroV withChildrenBody) :: ctx,
          "") :=
  (C5_children_capture
    (ComponentEnvironment_components [componentWithChildrenClass])
    "ComponentWithChildren"
    (Tok.blockEnd :: (withChildrenBody.map Tok.stmtTok ++
      Tok.endName ("end" ++ "ComponentWithChildren") :: []))
    (withChildrenBody.map Tok.stmtTok ++
      Tok.endName ("end" ++ "ComponentWithChildren") :: [])
    componentWithChildrenClass [] rfl (by decide) rfl).1
    withChildrenBody [] rfl

/-- C6: the compiled fragment ends with the `Include` instruction
(`include_tag`): its target is `component["template"]` with
`ignore_missing = False` and `with_context = True`; at render time the
target path is read from the bound `template` entry of the `component`
dict (so whatever the binding program put there — a call-site
expression's value included — determines the included template), a
missing target template is a hard render-time error
(`TemplateNotFound`), and the included template body executes in the
caller's scope, seeing every binding of the fragment (defaults,
attribute overrides and the `children` macro). -/
theorem C6_include_contract (components : List (String × ComponentClass))
    (tag : String) (toks : List Tok) (cc : ComponentClass) (r : ParseResult)
    (hlk : components.lookup tag = some cc)
    (hp : ComponentExtension_parse components (Tok.name tag :: toks) =
      .ok r) :
    (∃ pre, r.node = Stmt.scope (pre ++ [include_tag])) ∧
    include_tag = Stmt.includeT
      (Expr.getitem (Expr.name COMPONENT_DICT_NAME)
        (Expr.const (CVal.str TEMPLATE_FIELD_NAME))) false true ∧
    ∀ (fuel : Nat) (env : Env) (ctx : Ctx) (D : List (String × CVal))
      (p : String),
      ctx.lookup COMPONENT_DICT_NAME = some (RVal.val (CVal.dict D)) →
      D.lookup TEMPLATE_FIELD_NAME = some (CVal.str p) →
      evalExpr (fuel + 2) env ctx
        (Expr.getitem (Expr.name COMPONENT_DICT_NAME)
          (Expr.const (CVal.str TEMPLATE_FIELD_NAME))) =
        .ok (RVal.val (CVal.str p)) ∧
      (env.loader.lookup p = none →
        execStmt (fuel + 3) env ctx include_tag =
          .error (RenderError.templateNotFound p)) ∧
      (∀ tbody, env.loader.lookup p = some tbody →
        execStmt (fuel + 3) env ctx include_tag =
          (execStmts (fuel + 2) env ctx tbody).map fun pr => (ctx, pr.2)) := by
  obtain ⟨attrs, rest1, hattrs, hcase⟩ := parse_ok_inv _ _ _ _ _ hlk hp
  refine ⟨?_, rfl, ?_⟩
  · rcases hcase with ⟨-, inner, rest2, -, heq⟩ | ⟨-, heq⟩ <;> rw [heq]
    · exact ⟨prepare_component_dict cc.fields attrs ++
        [Stmt.macroDef CHILDREN_MACRO_NAME [] inner], by simp⟩
    · exact ⟨prepare_component_dict cc.fields attrs, rfl⟩
  · intro fuel env ctx D p hctx hD
    have he : evalExpr (fuel + 2) env ctx
        (Expr.getitem (Expr.name COMPONENT_DICT_NAME)
          (Expr.const (CVal.str TEMPLATE_FIELD_NAME))) =
        .ok (RVal.val (CVal.str p)) := by
      simp [evalExpr, hctx, hD, Bind.bind, Except.bind]
    refine ⟨he, fun hnone => ?_, fun tbody hsome => ?_⟩
    · simp [execStmt, include_tag, he, hnone, Bind.bind, Except.bind]
    · simp [execStmt, include_tag, he, hsome, Bind.bind, Except.bind]

/-- Concrete instance of `C6_include_contract`: the compiled childfree
occurrence of `test_access_children_in_childfree_component`. -/
theorem C6_witness :
    ∃ r, childfreeParse = .ok r ∧
      ((∃ pre, r.node = Stmt.scope (pre ++ [include_tag])) ∧
       include_tag = Stmt.includeT
         (Expr.getitem (Expr.name COMPONENT_DICT_NAME)
           (Expr.const (CVal.str TEMPLATE_FIELD_NAME))) false true ∧
       ∀ (fuel : Nat) (env : Env) (ctx : Ctx) (D : List (String × CVal))
         (p : String),
         ctx.lookup COMPONENT_DICT_NAME = some (RVal.val (CVal.dict D)) →
         D.lookup TEMPLATE_FIELD_NAME = some (CVal.str p) →
         evalExpr (fuel + 2) env ctx
           (Expr.getitem (Expr.name COMPONENT_DICT_NAME)
             (Expr.const (CVal.str TEMPLATE_FIELD_NAME))) =
           .ok (RVal.val (CVal.str p)) ∧
         (env.loader.lookup p = none →
           execStmt (fuel + 3) env ctx include_tag =
             .error (RenderError.templateNotFound p)) ∧
         (∀ tbody, env.loader.lookup p = some tbody →
           execStmt (fuel + 3) env ctx include_tag =
             (execStmts (fuel + 2) env ctx tbody).map
               fun pr => (ctx, pr.2))) :=
  ⟨_, rfl, C6_include_contract
    (ComponentEnvironment_components [componentWithoutChildrenClass])
    "ComponentWithoutChildren" [Tok.blockEnd]
    componentWithoutChildrenClass _ rfl rfl⟩

/-- C7: for a schema without a `children` field, compilation succeeds
and the emitted fragment contains no macro at all, so no `children`
binding is introduced; an included template that then invokes the
reserved zero-argument `children` callable fails at render time with
the undefined-reference error (calling Jinja2's `Undefined`), never at
compile time and never by silently rendering empty output (the result
is an error, not an empty string). -/
theorem C7_childfree_children_call_fails
    (components : List (String × ComponentClass)) (tag : String)
    (toks : List Tok) (cc : ComponentClass) (r : ParseResult)
    (hlk : components.lookup tag = some cc)
    (hnc : CHILDREN_FIELD_NAME ∉ cc.fields.map FieldSpec.name)
    (hp : ComponentExtension_parse components (Tok.name tag :: toks) =
      .ok r) :
    (∃ body, r.node = Stmt.scope body ∧
      ∀ nm args b, Stmt.macroDef nm args b ∉ body) ∧
    ∀ fuel env ctx, ctx.lookup CHILDREN_MACRO_NAME = none →
      evalExpr (fuel + 2) env ctx
        (Expr.call (Expr.name CHILDREN_MACRO_NAME) []) =
        .error RenderError.undefinedError ∧
      execStmt (fuel + 3) env ctx
        (Stmt.emit (Expr.call (Expr.name CHILDREN_MACRO_NAME) [])) =
        .error RenderError.undefinedError := by
  obtain ⟨attrs, rest1, hattrs, hcase⟩ := parse_ok_inv _ _ _ _ _ hlk hp
  rcases hcase with ⟨hc, -⟩ | ⟨-, heq⟩
  · exact absurd hc hnc
  constructor
  · rw [heq]
    exact ⟨_, rfl, fun nm args b =>
      no_macro_in_prepare cc.fields attrs nm args b⟩
  · intro fuel env ctx hctx
    have he : evalExpr (fuel + 2) env ctx
        (Expr.call (Expr.name CHILDREN_MACRO_NAME) []) =
        .error RenderError.undefinedError := by
      simp [evalExpr, hctx, Bind.bind, Except.bind]
    exact ⟨he, by simp [execStmt, he, Except.map]⟩

/-- Concrete instance of `C7_childfree_children_call_fails`: the
childfree test scenario end to end — compilation succeeds, and the full
render of the fragment (whose included `component.html` is
`{{ children() }}`) fails with the undefined-reference error rather
than producing output. -/
theorem C7_witness :
    ∃ r, childfreeParse = .ok r ∧
      ((∃ body, r.node = Stmt.scope body ∧
        ∀ nm args b, Stmt.macroDef nm args b ∉ body) ∧
       ∀ fuel env ctx, ctx.lookup CHILDREN_MACRO_NAME = none →
        evalExpr (fuel + 2) env ctx
          (Expr.call (Expr.name CHILDREN_MACRO_NAME) []) =
          .error RenderError.undefinedError ∧
        execStmt (fuel + 3) env ctx
          (Stmt.emit (Expr.call (Expr.name CHILDREN_MACRO_NAME) [])) =
          .error RenderError.undefinedError) ∧
      execStmt 50 childfreeEnv [] childfreeNode =
        .error RenderError.undefinedError :=
  ⟨_, rfl, C7_childfree_children_call_fails
    (ComponentEnvironment_components [componentWithoutChildrenClass])
    "ComponentWithoutChildren" [Tok.blockEnd]
    componentWithoutChildrenClass _ rfl (by decide) rfl, rfl⟩

/-- C9: the `PaintTool` scenario of `test_dataclass_fields_render`.
Compiling `{% PaintTool paint_color = "green", size = 15,
properties = ["soft", "tapered"] %}` succeeds, and in the scope the
included `paint_tool.html` renders in, the `component` binding reads:
`paint_color = "green"` (call-site override of a defaultless field),
`effect` is the host's undefined value (no default, no factory, no
attribute — and it prints as the empty string), `default_color = "red"`
(value default kept), `color_list = ["red", "green", "blue"]`
(factory default), `size = 15` (value default overridden),
`properties = ["soft", "tapered"]` (factory default overridden). -/
theorem C9_paint_tool_scenario :
    (∃ r, paintToolParse = .ok r) ∧
    paintToolField "paint_color" = .ok (RVal.val (CVal.str "green")) ∧
    paintToolField "effect" = .ok RVal.undefined ∧
    renderRVal RVal.undefined = "" ∧
    paintToolField "default_color" = .ok (RVal.val (CVal.str "red")) ∧
    paintToolField "color_list" = .ok (RVal.val (CVal.list
      [CVal.str "red", CVal.str "green", CVal.str "blue"])) ∧
    paintToolField "size" = .ok (RVal.val (CVal.int 15)) ∧
    paintToolField "properties" = .ok (RVal.val (CVal.list
      [CVal.str "soft", CVal.str "tapered"])) :=
  ⟨⟨_, rfl⟩, rfl, rfl, rfl, rfl, rfl, rfl, rfl⟩

/-- C4, evaluated at the failing input: constructing the environment
from the template-field-less `NoTemplateField` schema succeeds — the
class is registered as-is, no `InvalidSchemaError` is raised at
construction — and even compiling an occurrence of the tag succeeds.
This matches the repository's own test `test_no_template_field`, which
constructs the environment successfully and only meets a `TypeError` at
`env.get_template(...)`, with a TODO noting the exact error is yet to
be thrown; it contradicts the claim's registration-time validation. -/
theorem C4_no_validation_at_construction :
    ComponentEnvironment_components [noTemplateFieldClass] =
      [("NoTemplateField", noTemplateFieldClass)] ∧
    ∃ r, ComponentExtension_parse
        (ComponentEnvironment_components [noTemplateFieldClass])
        [Tok.name "NoTemplateField", Tok.blockEnd] = .ok r :=
  ⟨rfl, _, rfl⟩
